import Mathlib

/-! gh-label-sync: the diff engine and the apply loops.

A shallow embedding of `pkg/api/client.go` (`Label`, `LabelInput`,
`NormalizeColor`), `pkg/diff/diff.go` (`ComputeDiff`, `Summary`),
`pkg/parser/yaml.go` (`ParseFile`), `pkg/format/output.go` (`FormatDiff`) and
the command bodies `runSync` (`cmd/sync.go`) and `runClone` (`cmd/clone.go`).

Modelling conventions.

* Go strings are Lean strings; slices are lists.
* A Go `map[string]api.Label` is a total function `String → Option Label`;
  assignment `m[k] = v` is a pointwise update, the two-valued lookup
  `v, exists := m[k]` is application.
* The pointers `Desired` and `Current` of a `LabelDiff` are the optional label
  they point at: `none` is `nil`, and `some l` is the value the loop variable
  held in the iteration that took its address (loop variables are per
  iteration, the semantics of Go 1.22 and later).  Dereferencing `none` is a
  run-time panic, modelled by `Option` results.
* The REST client is an oracle: it is asked with the calls already issued and
  the call at hand and answers whether the call succeeds.  The calls issued
  and their results are logged.
* Printed text is not part of the model, except that `FormatDiff` is kept
  because it dereferences the pointers of the records it prints.
-/

namespace LabelSync

/-! ## pkg/api/client.go -/

/-- The `api.Label` struct. -/
structure Label where
  Name : String
  Color : String
  Description : String
deriving DecidableEq, Repr

/-- The `api.LabelInput` struct, the payload of a create or update request. -/
structure LabelInput where
  Name : String
  Color : String
  Description : String
deriving DecidableEq, Repr

/-- `NormalizeColor`: if the string is non-empty and its first byte is `#`,
the string without that byte; otherwise the string itself. -/
def NormalizeColor (color : String) : String :=
  if 0 < color.data.length ∧ color.data.head? = some '#' then
    String.mk (color.data.drop 1)
  else
    color

/-! ## pkg/diff/diff.go -/

/-- The `DiffType` constants. -/
inductive DiffType where
  | DiffTypeCreate
  | DiffTypeUpdate
  | DiffTypeMatch
  | DiffTypeExtra
deriving DecidableEq, Repr

open DiffType

/-- The `LabelDiff` struct; the field `Type` of the source is `Typ` here. -/
structure LabelDiff where
  Typ : DiffType
  Name : String
  Desired : Option Label := none
  Current : Option Label := none
  ColorChange : Bool := false
  DescChange : Bool := false
deriving DecidableEq, Repr

/-- A Go `map[string]api.Label`. -/
abbrev LabelMap := String → Option Label

/-- The result of `make(map[string]api.Label)`. -/
def emptyMap : LabelMap := fun _ => none

/-- The assignment `m[k] = v`. -/
def mapSet (m : LabelMap) (k : String) (v : Label) : LabelMap :=
  fun k' => if k' = k then some v else m k'

/-- The loop `for _, label := range labels { m[label.Name] = label }` started
on an empty map. -/
def buildMap (labels : List Label) : LabelMap :=
  labels.foldl (fun m label => mapSet m label.Name label) emptyMap

/-- The body of the first loop of `ComputeDiff`: the record appended for one
desired label. -/
def diffDesired (currentMap : LabelMap) (desiredLabel : Label) : LabelDiff :=
  match currentMap desiredLabel.Name with
  | some currentLabel =>
    let colorMatch :=
      decide (NormalizeColor currentLabel.Color = NormalizeColor desiredLabel.Color)
    let descMatch := decide (currentLabel.Description = desiredLabel.Description)
    if colorMatch && descMatch then
      { Typ := DiffTypeMatch, Name := desiredLabel.Name,
        Desired := some desiredLabel, Current := some currentLabel }
    else
      { Typ := DiffTypeUpdate, Name := desiredLabel.Name,
        Desired := some desiredLabel, Current := some currentLabel,
        ColorChange := !colorMatch, DescChange := !descMatch }
  | none =>
    { Typ := DiffTypeCreate, Name := desiredLabel.Name, Desired := some desiredLabel }

/-- The body of the second loop of `ComputeDiff`: the records appended for one
current label (one `Extra` record, or nothing). -/
def diffCurrent (desiredMap : LabelMap) (currentLabel : Label) : List LabelDiff :=
  match desiredMap currentLabel.Name with
  | none => [{ Typ := DiffTypeExtra, Name := currentLabel.Name, Current := some currentLabel }]
  | some _ => []

/-- `ComputeDiff`: both lookup maps are built, then the desired list and the
current list are walked in order, appending to `diffs`. -/
def ComputeDiff (desired current : List Label) : List LabelDiff :=
  let currentMap := buildMap current
  let desiredMap := buildMap desired
  let diffs : List LabelDiff :=
    desired.foldl (fun diffs desiredLabel => diffs ++ [diffDesired currentMap desiredLabel]) []
  current.foldl (fun diffs currentLabel => diffs ++ diffCurrent desiredMap currentLabel) diffs

/-- The four counters returned by `Summary`; the result `matches` of the source
is `nmatches` here. -/
structure Counts where
  nmatches : Nat := 0
  creates : Nat := 0
  updates : Nat := 0
  extras : Nat := 0
deriving DecidableEq, Repr

/-- `Summary`: one counter is incremented per record, by its type. -/
def Summary (diffs : List LabelDiff) : Counts :=
  diffs.foldl (fun c diff =>
    match diff.Typ with
    | DiffTypeMatch => { c with nmatches := c.nmatches + 1 }
    | DiffTypeCreate => { c with creates := c.creates + 1 }
    | DiffTypeUpdate => { c with updates := c.updates + 1 }
    | DiffTypeExtra => { c with extras := c.extras + 1 }) {}

/-! ## pkg/parser/yaml.go -/

/-- What `ParseFile` obtains from outside the program: the labels decoded from
standard input and from the opened file by `parseYAML`, `parseJSON` and
`parseCSV` (or the error of the decoder), the error of `os.Open` if it fails,
and the lower-cased extension `strings.ToLower(filepath.Ext(filename))`. -/
structure FileInput where
  stdinYAML : Except String (List Label)
  openError : Option String
  ext : String
  fileYAML : Except String (List Label)
  fileJSON : Except String (List Label)
  fileCSV : Except String (List Label)

/-- The loop `for i := range labels { labels[i].Color = api.NormalizeColor(labels[i].Color) }`. -/
def normalizeColors (labels : List Label) : List Label :=
  labels.map (fun l => { l with Color := NormalizeColor l.Color })

/-- `ParseFile`: standard input is decoded as YAML and returned at once; a file
is decoded by its extension (YAML when the extension is unknown) and the colors
of the decoded labels are normalized. -/
def ParseFile (filename : String) (f : FileInput) : Except String (List Label) :=
  if filename = "-" then
    f.stdinYAML
  else
    match f.openError with
    | some err => .error ("failed to open file: " ++ err)
    | none =>
      let decoded : Except String (List Label) :=
        if f.ext = ".yml" ∨ f.ext = ".yaml" then f.fileYAML
        else if f.ext = ".json" then f.fileJSON
        else if f.ext = ".csv" then f.fileCSV
        else
          match f.fileYAML with
          | .error err =>
            .error ("unsupported file format (use .yml, .json, or .csv): " ++ err)
          | .ok labels => .ok labels
      match decoded with
      | .error err => .error err
      | .ok labels => .ok (normalizeColors labels)

/-! ## pkg/format/output.go -/

/-- The text `FormatDiff` writes for one record, or `none` when a `nil`
pointer is dereferenced. -/
def formatRecord (verbose : Bool) (d : LabelDiff) : Option String :=
  match d.Typ with
  | DiffTypeMatch =>
    if verbose then some ("  ✓ " ++ d.Name ++ " - matches\n") else some ""
  | DiffTypeCreate =>
    match d.Desired with
    | none => none
    | some desired =>
      some ("  + " ++ d.Name ++ " - will create (color: " ++ desired.Color ++ ")\n")
  | DiffTypeUpdate =>
    let colorPart : Option (List String) :=
      if d.ColorChange then
        match d.Current, d.Desired with
        | some current, some desired => some ["color: " ++ current.Color ++ " → " ++ desired.Color]
        | _, _ => none
      else some []
    match colorPart with
    | none => none
    | some changes =>
      let changes := if d.DescChange then changes ++ ["description"] else changes
      some ("  ~ " ++ d.Name ++ " - differs (" ++ ", ".intercalate changes ++ ")\n")
  | DiffTypeExtra =>
    some ("  ⚠ " ++ d.Name ++ " - exists but not in file\n")

/-- `FormatDiff`: the header line followed by the text of every record. -/
def FormatDiff (diffs : List LabelDiff) (verbose : Bool) : Option String :=
  diffs.foldlM (fun sb d => (formatRecord verbose d).map (fun line => sb ++ line))
    "Analyzing labels...\n"

/-! ## The REST client as seen by the apply loops -/

/-- A mutating request: `client.CreateLabel(input)`,
`client.UpdateLabel(name, input)` or `client.DeleteLabel(name)`. -/
inductive Call where
  | CreateLabel (input : LabelInput)
  | UpdateLabel (name : String) (input : LabelInput)
  | DeleteLabel (name : String)
deriving DecidableEq, Repr

/-- The behaviour of the repository behind the client: given the calls issued
so far and the call at hand, whether the call succeeds (`err == nil`). -/
abbrev Mutator := List Call → Call → Bool

/-- The state of an apply loop: the calls issued with their results, and the
counters `created`, `updated`, `deleted`. -/
structure ApplyState where
  log : List (Call × Bool) := []
  created : Nat := 0
  updated : Nat := 0
  deleted : Nat := 0
deriving DecidableEq, Repr

/-- Issue one call and log it with its result. -/
def issue (client : Mutator) (st : ApplyState) (c : Call) : Bool × ApplyState :=
  let ok := client (st.log.map Prod.fst) c
  (ok, { st with log := st.log ++ [(c, ok)] })

/-- How a command ends. `failed` is `return err`; `inSync`, `dryRun` and
`cancelled` are the three early `return nil`; `completed` is the `return nil`
after the apply loop, with the counters passed to `FormatResult`; `panicked`
is a `nil` dereference. -/
inductive Outcome where
  | failed (err : String)
  | inSync
  | dryRun
  | cancelled
  | completed (created updated deleted : Nat)
  | panicked
deriving DecidableEq, Repr

/-- A run of a command: how it ended and the calls it issued. -/
structure Run where
  outcome : Outcome
  log : List (Call × Bool)
deriving DecidableEq, Repr

/-! ## cmd/sync.go -/

/-- The body of the apply loop of `runSync` for one record; `none` when
`d.Desired` is dereferenced and is `nil`. -/
def syncStep (client : Mutator) (syncForce syncDeleteUnmanaged : Bool)
    (st : ApplyState) (d : LabelDiff) : Option ApplyState :=
  match d.Typ with
  | DiffTypeCreate =>
    match d.Desired with
    | none => none
    | some desired =>
      let input : LabelInput :=
        { Name := desired.Name, Color := desired.Color, Description := desired.Description }
      let (ok, st) := issue client st (.CreateLabel input)
      if ok then some { st with created := st.created + 1 } else some st
  | DiffTypeUpdate =>
    if syncForce then
      match d.Desired with
      | none => none
      | some desired =>
        let input : LabelInput :=
          { Name := desired.Name, Color := desired.Color, Description := desired.Description }
        let (ok, st) := issue client st (.UpdateLabel d.Name input)
        if ok then some { st with updated := st.updated + 1 } else some st
    else some st
  | DiffTypeExtra =>
    if syncDeleteUnmanaged then
      let (ok, st) := issue client st (.DeleteLabel d.Name)
      if ok then some { st with deleted := st.deleted + 1 } else some st
    else some st
  | DiffTypeMatch => some st

/-- The apply loop of `runSync` from a given state, up to the final report. -/
def syncApply (client : Mutator) (syncForce syncDeleteUnmanaged : Bool) :
    ApplyState → List LabelDiff → Run
  | st, [] => { outcome := .completed st.created st.updated st.deleted, log := st.log }
  | st, d :: ds =>
    match syncStep client syncForce syncDeleteUnmanaged st d with
    | none => { outcome := .panicked, log := st.log }
    | some st' => syncApply client syncForce syncDeleteUnmanaged st' ds

/-- The command-line flags read by `runSync`. -/
structure SyncFlags where
  syncFile : String
  syncDryRun : Bool
  syncForce : Bool
  syncDeleteUnmanaged : Bool
  syncYes : Bool

/-- The two functions of Go's `strings` package that `runSync` applies to the
operator's response. -/
structure GoStrings where
  ToLower : String → String
  TrimSpace : String → String

/-- What `runSync` obtains from outside the program: the label file, the
error of `api.NewClient` if it fails, the result of `client.ListLabels()`, the
result of `reader.ReadString` on standard input, and the repository behind
the client. -/
structure SyncWorld where
  file : FileInput
  newClientError : Option String
  listLabels : Except String (List Label)
  readString : Except String String
  client : Mutator

/-- The count `totalChanges` of `runSync`. -/
def syncTotalChanges (syncForce syncDeleteUnmanaged : Bool) (diffs : List LabelDiff) : Nat :=
  let s := Summary diffs
  let totalChanges := s.creates
  let totalChanges := if syncForce then totalChanges + s.updates else totalChanges
  let totalChanges := if syncDeleteUnmanaged then totalChanges + s.extras else totalChanges
  totalChanges

/-- `runSync`. -/
def runSync (fl : SyncFlags) (strings : GoStrings) (w : SyncWorld) : Run :=
  match ParseFile fl.syncFile w.file with
  | .error err => { outcome := .failed err, log := [] }
  | .ok desiredLabels =>
    if desiredLabels.length = 0 then
      { outcome := .failed "no labels found in file", log := [] }
    else
      match w.newClientError with
      | some err => { outcome := .failed err, log := [] }
      | none =>
        match w.listLabels with
        | .error err => { outcome := .failed err, log := [] }
        | .ok currentLabels =>
          let diffs := ComputeDiff desiredLabels currentLabels
          match FormatDiff diffs false with
          | none => { outcome := .panicked, log := [] }
          | some _ =>
            if syncTotalChanges fl.syncForce fl.syncDeleteUnmanaged diffs = 0 then
              { outcome := .inSync, log := [] }
            else if fl.syncDryRun then
              { outcome := .dryRun, log := [] }
            else
              let applied : Run :=
                syncApply w.client fl.syncForce fl.syncDeleteUnmanaged {} diffs
              if fl.syncYes then applied
              else
                match w.readString with
                | .error err => { outcome := .failed err, log := [] }
                | .ok response =>
                  let response := strings.TrimSpace (strings.ToLower response)
                  if response ≠ "y" ∧ response ≠ "yes" then
                    { outcome := .cancelled, log := [] }
                  else applied

/-! ## cmd/clone.go -/

/-- The body of the apply loop of `runClone` for one record. -/
def cloneStep (client : Mutator) (cloneForce : Bool)
    (st : ApplyState) (d : LabelDiff) : Option ApplyState :=
  match d.Typ with
  | DiffTypeCreate =>
    match d.Desired with
    | none => none
    | some desired =>
      let input : LabelInput :=
        { Name := desired.Name, Color := desired.Color, Description := desired.Description }
      let (ok, st) := issue client st (.CreateLabel input)
      if ok then some { st with created := st.created + 1 } else some st
  | DiffTypeUpdate =>
    if cloneForce then
      match d.Desired with
      | none => none
      | some desired =>
        let input : LabelInput :=
          { Name := desired.Name, Color := desired.Color, Description := desired.Description }
        let (ok, st) := issue client st (.UpdateLabel d.Name input)
        if ok then some { st with updated := st.updated + 1 } else some st
    else some st
  | _ => some st

/-- The apply loop of `runClone` from a given state, up to the final report
`FormatResult(created, updated, 0)`. -/
def cloneApply (client : Mutator) (cloneForce : Bool) :
    ApplyState → List LabelDiff → Run
  | st, [] => { outcome := .completed st.created st.updated 0, log := st.log }
  | st, d :: ds =>
    match cloneStep client cloneForce st d with
    | none => { outcome := .panicked, log := st.log }
    | some st' => cloneApply client cloneForce st' ds

/-- What `runClone` obtains from outside the program: for the source and for
the target repository the error of `api.NewClient` if it fails and the result
of `ListLabels()`, and the target repository behind the client. -/
structure CloneWorld where
  sourceClientError : Option String
  sourceLabels : Except String (List Label)
  targetClientError : Option String
  targetLabels : Except String (List Label)
  client : Mutator

/-- The count `totalChanges` of `runClone`. -/
def cloneTotalChanges (cloneForce : Bool) (diffs : List LabelDiff) : Nat :=
  let s := Summary diffs
  let totalChanges := s.creates
  let totalChanges := if cloneForce then totalChanges + s.updates else totalChanges
  totalChanges

/-- `runClone`. -/
def runClone (cloneForce : Bool) (repoFlag : String) (w : CloneWorld) : Run :=
  if repoFlag = "" then
    { outcome := .failed "target repository required (use --repo flag)", log := [] }
  else
    match w.sourceClientError with
    | some err => { outcome := .failed ("failed to connect to source repo: " ++ err), log := [] }
    | none =>
      match w.sourceLabels with
      | .error err => { outcome := .failed ("failed to list source labels: " ++ err), log := [] }
      | .ok sourceLabels =>
        if sourceLabels.length = 0 then
          { outcome := .failed "no labels found in source repository", log := [] }
        else
          match w.targetClientError with
          | some err =>
            { outcome := .failed ("failed to connect to target repo: " ++ err), log := [] }
          | none =>
            match w.targetLabels with
            | .error err =>
              { outcome := .failed ("failed to list target labels: " ++ err), log := [] }
            | .ok targetLabels =>
              let diffs := ComputeDiff sourceLabels targetLabels
              match FormatDiff diffs false with
              | none => { outcome := .panicked, log := [] }
              | some _ =>
                if cloneTotalChanges cloneForce diffs = 0 then
                  { outcome := .inSync, log := [] }
                else
                  cloneApply w.client cloneForce {} diffs

/-! ## Vocabulary of the statements -/

/-- The record of an observed label that no desired label names. -/
def extraRecord (currentLabel : Label) : LabelDiff :=
  { Typ := DiffTypeExtra, Name := currentLabel.Name, Current := some currentLabel }

/-- The calls the reconciler owes one record under a policy: a create with
the desired label's name, color and description for a `Create` record; an
update of the record's name with the same payload for an `Update` record when
updates are forced; a delete of the record's name for an `Extra` record when
unmanaged labels are deleted; nothing otherwise. -/
def plannedCalls (force deleteUnmanaged : Bool) (d : LabelDiff) : List Call :=
  match d.Typ, d.Desired with
  | DiffTypeCreate, some l => [.CreateLabel ⟨l.Name, l.Color, l.Description⟩]
  | DiffTypeUpdate, some l =>
    if force then [.UpdateLabel d.Name ⟨l.Name, l.Color, l.Description⟩] else []
  | DiffTypeExtra, _ => if deleteUnmanaged then [.DeleteLabel d.Name] else []
  | _, _ => []

/-- The log of issuing the given calls one after the other, after `hist`. -/
def runCalls (client : Mutator) : List Call → List Call → List (Call × Bool)
  | _, [] => []
  | hist, c :: cs => (c, client hist c) :: runCalls client (hist ++ [c]) cs

/-- Is the call a create? -/
def Call.isCreate : Call → Bool
  | .CreateLabel _ => true
  | _ => false

/-- Is the call an update? -/
def Call.isUpdate : Call → Bool
  | .UpdateLabel _ _ => true
  | _ => false

/-- Is the call a delete? -/
def Call.isDelete : Call → Bool
  | .DeleteLabel _ => true
  | _ => false

/-- The number of logged calls of a kind that succeeded. -/
def succeeded (kind : Call → Bool) (log : List (Call × Bool)) : Nat :=
  log.countP (fun e => kind e.1 && e.2)

/-- A client all of whose calls succeed. -/
def alwaysOk : Mutator := fun _ _ => true

/-- A client whose second call fails and whose other calls succeed. -/
def secondFails : Mutator := fun hist _ => decide (hist.length ≠ 1)

/-- The desired list of the end-to-end scenario. -/
def scenarioDesired : List Label :=
  [⟨"bug", "d73a4a", ""⟩, ⟨"docs", "0075ca", ""⟩]

/-- The observed list of the end-to-end scenario. -/
def scenarioObserved : List Label :=
  [⟨"bug", "D73A4A", ""⟩, ⟨"stale", "cccccc", ""⟩]

/-- The actionable count of a diff under a policy: the creates, plus the
updates if updates are forced, plus the extras if unmanaged labels are
deleted. -/
def actionable (force deleteUnmanaged : Bool) (diffs : List LabelDiff) : Nat :=
  diffs.countP (fun d => decide (d.Typ = DiffTypeCreate))
    + (if force then diffs.countP (fun d => decide (d.Typ = DiffTypeUpdate)) else 0)
    + (if deleteUnmanaged then diffs.countP (fun d => decide (d.Typ = DiffTypeExtra)) else 0)

/-- An instance of the two string functions for examples: ASCII case folding
and trimming of blanks, tabs, carriage returns and line feeds. -/
def asciiStrings : GoStrings where
  ToLower := fun s => String.mk (s.data.map Char.toLower)
  TrimSpace := fun s =>
    String.mk ((s.data.dropWhile Char.isWhitespace).reverse.dropWhile Char.isWhitespace).reverse

/-- A world for examples: standard input and the file (a `.yml` file) both
decode to `fileLabels`, the repository lists `repoLabels`, the operator types
`response`, and every call succeeds. -/
def exampleWorld (fileLabels repoLabels : List Label) (response : String) : SyncWorld where
  file :=
    { stdinYAML := .ok fileLabels, openError := none, ext := ".yml",
      fileYAML := .ok fileLabels, fileJSON := .error "not JSON", fileCSV := .error "not CSV" }
  newClientError := none
  listLabels := .ok repoLabels
  readString := .ok response
  client := alwaysOk

/-- A world for examples of `runClone`: the source lists `sourceLabels`, the
target lists `targetLabels`, and every call succeeds. -/
def exampleCloneWorld (sourceLabels targetLabels : List Label) : CloneWorld where
  sourceClientError := none
  sourceLabels := .ok sourceLabels
  targetClientError := none
  targetLabels := .ok targetLabels
  client := alwaysOk

/-- A diff list for examples of the apply loop: one `Update`, one `Create`,
one `Match` and one `Extra` record. -/
def exampleDiffs : List LabelDiff :=
  [ { Typ := DiffTypeUpdate, Name := "bug", Desired := some ⟨"bug", "d73a4a", ""⟩,
      Current := some ⟨"bug", "D73A4A", ""⟩, ColorChange := true },
    { Typ := DiffTypeCreate, Name := "docs", Desired := some ⟨"docs", "0075ca", ""⟩ },
    { Typ := DiffTypeMatch, Name := "help", Desired := some ⟨"help", "ffffff", ""⟩,
      Current := some ⟨"help", "ffffff", ""⟩ },
    { Typ := DiffTypeExtra, Name := "stale", Current := some ⟨"stale", "cccccc", ""⟩ } ]

/-- A list with the name `bug` twice, under two colors. -/
def duplicateLabels : List Label :=
  [⟨"bug", "ff0000", ""⟩, ⟨"bug", "00ff00", ""⟩]

/-! ## Lemmas on the lookup maps and on the shape of `ComputeDiff` -/

theorem foldl_mapSet_apply (ls : List Label) (m : LabelMap) (n : String) :
    ls.foldl (fun m label => mapSet m label.Name label) m n
      = (ls.reverse.find? (fun l => decide (l.Name = n))).or (m n) := by
  induction ls generalizing m with
  | nil => simp
  | cons l ls ih =>
    rw [List.foldl_cons, ih, List.reverse_cons, List.find?_append]
    cases hfind : ls.reverse.find? (fun l => decide (l.Name = n)) with
    | some x => simp
    | none =>
      by_cases hn : l.Name = n
      · simp [mapSet, hn]
      · have hn' : ¬ n = l.Name := fun h => hn h.symm
        simp [mapSet, hn, hn']

/-- A lookup in the map built from a list finds the last label of the list
with that name. -/
theorem buildMap_eq (ls : List Label) (n : String) :
    buildMap ls n = ls.reverse.find? (fun l => decide (l.Name = n)) := by
  unfold buildMap
  rw [foldl_mapSet_apply]
  simp [emptyMap]

theorem buildMap_eq_none_iff (ls : List Label) (n : String) :
    buildMap ls n = none ↔ n ∉ ls.map Label.Name := by
  rw [buildMap_eq, List.find?_eq_none]
  simp only [List.mem_reverse, decide_eq_true_eq, List.mem_map, not_exists, not_and]

theorem buildMap_some (ls : List Label) (n : String) (l : Label)
    (h : buildMap ls n = some l) : l ∈ ls ∧ l.Name = n := by
  rw [buildMap_eq] at h
  have h1 := List.mem_of_find?_eq_some h
  have h2 := List.find?_some h
  exact ⟨by simpa using h1, by simpa using h2⟩

theorem foldl_append_singleton {α β : Type} (f : α → β) (l : List α) (init : List β) :
    l.foldl (fun acc x => acc ++ [f x]) init = init ++ l.map f := by
  induction l generalizing init with
  | nil => simp
  | cons a l ih => simp [ih]

theorem foldl_append_flatMap {α β : Type} (g : α → List β) (l : List α) (init : List β) :
    l.foldl (fun acc x => acc ++ g x) init = init ++ l.flatMap g := by
  induction l generalizing init with
  | nil => simp
  | cons a l ih => simp [ih, List.flatMap_cons]

theorem flatMap_diffCurrent (desired current : List Label) :
    current.flatMap (diffCurrent (buildMap desired))
      = (current.filter (fun l => decide (l.Name ∉ desired.map Label.Name))).map extraRecord := by
  induction current with
  | nil => simp
  | cons c cs ih =>
    rw [List.flatMap_cons, ih, List.filter_cons]
    by_cases hc : c.Name ∈ desired.map Label.Name
    · have hsome : buildMap desired c.Name ≠ none := by
        rw [Ne, buildMap_eq_none_iff]; exact fun h => h hc
      cases hb : buildMap desired c.Name with
      | none => exact absurd hb hsome
      | some x => simp [diffCurrent, hb, hc]
    · have hnone := (buildMap_eq_none_iff desired c.Name).2 hc
      simp [diffCurrent, hnone, hc, extraRecord]

/-- `ComputeDiff` is one record per desired label followed by one `Extra`
record per observed label whose name no desired label has. -/
theorem ComputeDiff_eq (desired current : List Label) :
    ComputeDiff desired current
      = desired.map (diffDesired (buildMap current))
        ++ (current.filter (fun l => decide (l.Name ∉ desired.map Label.Name))).map extraRecord := by
  unfold ComputeDiff
  simp only []
  rw [foldl_append_flatMap, foldl_append_singleton, flatMap_diffCurrent]
  simp

theorem diffDesired_Name (m : LabelMap) (l : Label) : (diffDesired m l).Name = l.Name := by
  unfold diffDesired
  cases m l.Name with
  | none => rfl
  | some c =>
    simp only []
    split <;> rfl

theorem diffDesired_Typ_ne_extra (m : LabelMap) (l : Label) :
    (diffDesired m l).Typ ≠ DiffTypeExtra := by
  unfold diffDesired
  cases m l.Name with
  | none => simp
  | some c =>
    simp only []
    split <;> simp

theorem ComputeDiff_names (desired current : List Label) :
    (ComputeDiff desired current).map LabelDiff.Name
      = desired.map Label.Name
        ++ (current.filter (fun l => decide (l.Name ∉ desired.map Label.Name))).map Label.Name := by
  rw [ComputeDiff_eq, List.map_append, List.map_map, List.map_map]
  congr 1
  · apply List.map_congr_left
    intro l _
    exact diffDesired_Name _ l

theorem diffDesired_of_none (m : LabelMap) (d : Label) (h : m d.Name = none) :
    diffDesired m d = { Typ := DiffTypeCreate, Name := d.Name, Desired := some d } := by
  unfold diffDesired
  rw [h]

theorem diffDesired_of_some (m : LabelMap) (d o : Label) (h : m d.Name = some o) :
    (diffDesired m d).Typ ≠ DiffTypeCreate
    ∧ (diffDesired m d).Desired = some d
    ∧ (diffDesired m d).Current = some o
    ∧ ((diffDesired m d).Typ = DiffTypeMatch ↔
        NormalizeColor o.Color = NormalizeColor d.Color ∧ o.Description = d.Description)
    ∧ ((diffDesired m d).Typ ≠ DiffTypeMatch →
        (diffDesired m d).Typ = DiffTypeUpdate
        ∧ ((diffDesired m d).ColorChange = true ↔ NormalizeColor o.Color ≠ NormalizeColor d.Color)
        ∧ ((diffDesired m d).DescChange = true ↔ o.Description ≠ d.Description)) := by
  unfold diffDesired
  rw [h]
  simp only []
  by_cases hc : NormalizeColor o.Color = NormalizeColor d.Color <;>
    by_cases hdesc : o.Description = d.Description <;>
    simp [hc, hdesc]

/-! ## The diff engine -/

/-- C1 (amended): when no name occurs twice in the desired list and no name
absent from the desired list occurs twice in the observed list, every name
of either list is the `Name` of exactly one record of `ComputeDiff`, and the
number of records is `len(desired)` plus the number of distinct observed
names that are not desired names. -/
theorem ComputeDiff_partition (desired observed : List Label)
    (hd : (desired.map Label.Name).Nodup)
    (ho : ((observed.filter
      (fun l => decide (l.Name ∉ desired.map Label.Name))).map Label.Name).Nodup) :
    (∀ n, n ∈ desired.map Label.Name ∨ n ∈ observed.map Label.Name →
      ((ComputeDiff desired observed).filter (fun r => decide (r.Name = n))).length = 1)
    ∧ (ComputeDiff desired observed).length
        = desired.length
          + ((observed.map Label.Name).dedup.filter
              (fun n => decide (n ∉ desired.map Label.Name))).length := by
  have hnames := ComputeDiff_names desired observed
  have hnodup : ((ComputeDiff desired observed).map LabelDiff.Name).Nodup := by
    rw [hnames, List.nodup_append]
    refine ⟨hd, ho, ?_⟩
    intro n hn1 hn2
    rw [List.mem_map] at hn2
    obtain ⟨l, hl, rfl⟩ := hn2
    rw [List.mem_filter] at hl
    exact (of_decide_eq_true hl.2) hn1
  constructor
  · intro n hn
    have hmem : n ∈ (ComputeDiff desired observed).map LabelDiff.Name := by
      rw [hnames, List.mem_append]
      by_cases h1 : n ∈ desired.map Label.Name
      · exact Or.inl h1
      · right
        rcases hn with hn | hn
        · exact absurd hn h1
        · rw [List.mem_map] at hn ⊢
          obtain ⟨l, hl, rfl⟩ := hn
          exact ⟨l, List.mem_filter.2 ⟨hl, decide_eq_true h1⟩, rfl⟩
    have hcount := List.count_eq_one_of_mem hnodup hmem
    rw [List.count_eq_countP, List.countP_map] at hcount
    rw [← List.countP_eq_length_filter, ← hcount]
    apply List.countP_congr
    intro r _
    simp
  · have hlen : (ComputeDiff desired observed).length
        = ((ComputeDiff desired observed).map LabelDiff.Name).length := by simp
    rw [hlen, hnames, List.length_append, List.length_map desired]
    congr 1
    apply List.Perm.length_eq
    rw [List.perm_ext_iff_of_nodup ho ((List.nodup_dedup _).filter _)]
    intro n
    simp only [List.mem_map, List.mem_filter, List.mem_dedup, decide_eq_true_eq]
    constructor
    · rintro ⟨l, ⟨hl, hnot⟩, rfl⟩
      exact ⟨⟨l, hl, rfl⟩, hnot⟩
    · rintro ⟨⟨l, hl, rfl⟩, hnot⟩
      exact ⟨l, ⟨hl, hnot⟩, rfl⟩

/-- C1, witness. -/
theorem ComputeDiff_partition_witness :
    (∀ n, n ∈ [(⟨"bug", "d73a4a", ""⟩ : Label), ⟨"docs", "0075ca", ""⟩].map Label.Name
        ∨ n ∈ [(⟨"bug", "D73A4A", ""⟩ : Label), ⟨"bug", "ffffff", ""⟩,
                ⟨"stale", "cccccc", ""⟩].map Label.Name →
      ((ComputeDiff [⟨"bug", "d73a4a", ""⟩, ⟨"docs", "0075ca", ""⟩]
          [⟨"bug", "D73A4A", ""⟩, ⟨"bug", "ffffff", ""⟩, ⟨"stale", "cccccc", ""⟩]).filter
        (fun r => decide (r.Name = n))).length = 1)
    ∧ (ComputeDiff [⟨"bug", "d73a4a", ""⟩, ⟨"docs", "0075ca", ""⟩]
          [⟨"bug", "D73A4A", ""⟩, ⟨"bug", "ffffff", ""⟩, ⟨"stale", "cccccc", ""⟩]).length
        = [(⟨"bug", "d73a4a", ""⟩ : Label), ⟨"docs", "0075ca", ""⟩].length
          + (([(⟨"bug", "D73A4A", ""⟩ : Label), ⟨"bug", "ffffff", ""⟩,
                ⟨"stale", "cccccc", ""⟩].map Label.Name).dedup.filter
              (fun n => decide (n ∉ [(⟨"bug", "d73a4a", ""⟩ : Label),
                ⟨"docs", "0075ca", ""⟩].map Label.Name))).length :=
  ComputeDiff_partition [⟨"bug", "d73a4a", ""⟩, ⟨"docs", "0075ca", ""⟩]
    [⟨"bug", "D73A4A", ""⟩, ⟨"bug", "ffffff", ""⟩, ⟨"stale", "cccccc", ""⟩]
    (by decide) (by decide)

/-- C1, counterexample: with the name `bug` twice in the desired list two
records are named `bug`; with the name `stale` twice in the observed list
there are two records, not `0 + 1`. -/
theorem ComputeDiff_partition_fails_on_duplicates :
    ("bug" ∈ [(⟨"bug", "d73a4a", ""⟩ : Label), ⟨"bug", "d73a4a", ""⟩].map Label.Name
      ∧ ((ComputeDiff [⟨"bug", "d73a4a", ""⟩, ⟨"bug", "d73a4a", ""⟩] []).filter
          (fun r => decide (r.Name = "bug"))).length ≠ 1)
    ∧ (ComputeDiff [] [⟨"stale", "cccccc", ""⟩, ⟨"stale", "cccccc", ""⟩]).length
        ≠ ([] : List Label).length
          + (([(⟨"stale", "cccccc", ""⟩ : Label), ⟨"stale", "cccccc", ""⟩].map
                Label.Name).dedup.filter
              (fun n => decide (n ∉ ([] : List Label).map Label.Name))).length := by
  decide

/-- C2: for the desired label at position `i`, the record at position `i` of
`ComputeDiff` carries its name; it is a `Create` exactly when no observed label
has that name; otherwise, with `o` the last observed label of that name, it
is a `Match` exactly when the normalized colors and the descriptions agree,
and else an `Update` whose `ColorChange` and `DescChange` say which differ. -/
theorem ComputeDiff_classifies (desired observed : List Label) (i : Nat)
    (hi : i < desired.length) :
    ∃ r, (ComputeDiff desired observed)[i]? = some r
      ∧ r.Name = desired[i].Name
      ∧ (r.Typ = DiffTypeCreate ↔ desired[i].Name ∉ observed.map Label.Name)
      ∧ (desired[i].Name ∈ observed.map Label.Name →
          ∃ o, observed.reverse.find? (fun l => decide (l.Name = desired[i].Name)) = some o
            ∧ (r.Typ = DiffTypeMatch ↔
                NormalizeColor o.Color = NormalizeColor desired[i].Color
                ∧ o.Description = desired[i].Description)
            ∧ (r.Typ ≠ DiffTypeMatch →
                r.Typ = DiffTypeUpdate
                ∧ (r.ColorChange = true ↔
                    NormalizeColor o.Color ≠ NormalizeColor desired[i].Color)
                ∧ (r.DescChange = true ↔ o.Description ≠ desired[i].Description))) := by
  refine ⟨diffDesired (buildMap observed) desired[i], ?_, diffDesired_Name _ _, ?_, ?_⟩
  · rw [ComputeDiff_eq, List.getElem?_append_left (by simpa using hi), List.getElem?_map,
      List.getElem?_eq_getElem hi]
    rfl
  · cases hb : buildMap observed desired[i].Name with
    | none =>
      rw [diffDesired_of_none _ _ hb]
      simpa using (buildMap_eq_none_iff observed desired[i].Name).1 hb
    | some o =>
      have hs := diffDesired_of_some _ _ _ hb
      have hin : ¬ desired[i].Name ∉ observed.map Label.Name := by
        rw [← buildMap_eq_none_iff, hb]; simp
      constructor
      · intro h; exact absurd h hs.1
      · intro h; exact absurd h hin
  · intro hin
    cases hb : buildMap observed desired[i].Name with
    | none => exact absurd hin ((buildMap_eq_none_iff observed desired[i].Name).1 hb)
    | some o =>
      have hs := diffDesired_of_some _ _ _ hb
      refine ⟨o, ?_, hs.2.2.2.1, hs.2.2.2.2⟩
      rw [← buildMap_eq, hb]

/-- C2, witness. -/
theorem ComputeDiff_classifies_witness :
    ∃ r, (ComputeDiff [⟨"bug", "#d73a4a", "x"⟩] [⟨"bug", "ffffff", "x"⟩,
        ⟨"bug", "d73a4a", "y"⟩])[0]? = some r
      ∧ r.Name = "bug" ∧ r.Typ = DiffTypeUpdate ∧ r.ColorChange = false
      ∧ r.DescChange = true := by
  obtain ⟨r, hr, _, _, _⟩ := ComputeDiff_classifies [⟨"bug", "#d73a4a", "x"⟩]
    [⟨"bug", "ffffff", "x"⟩, ⟨"bug", "d73a4a", "y"⟩] 0 (by decide)
  refine ⟨r, hr, ?_⟩
  have h0 : (ComputeDiff [⟨"bug", "#d73a4a", "x"⟩] [⟨"bug", "ffffff", "x"⟩,
      ⟨"bug", "d73a4a", "y"⟩])[0]?
      = some { Typ := DiffTypeUpdate, Name := "bug", Desired := some ⟨"bug", "#d73a4a", "x"⟩,
               Current := some ⟨"bug", "d73a4a", "y"⟩, ColorChange := false,
               DescChange := true } := by decide
  rw [h0] at hr
  cases hr
  decide

/-- C3: the record names of `ComputeDiff` are the desired names in desired
order followed by the names of the observed labels that no desired label
names, in observed order; the first `len(desired)` records are `Create`,
`Update` or `Match`, and every later record is `Extra`. -/
theorem ComputeDiff_order (desired observed : List Label) :
    (ComputeDiff desired observed).map LabelDiff.Name
      = desired.map Label.Name
        ++ (observed.filter
            (fun l => decide (l.Name ∉ desired.map Label.Name))).map Label.Name
    ∧ (∀ r ∈ (ComputeDiff desired observed).take desired.length,
        r.Typ = DiffTypeCreate ∨ r.Typ = DiffTypeUpdate ∨ r.Typ = DiffTypeMatch)
    ∧ (∀ r ∈ (ComputeDiff desired observed).drop desired.length, r.Typ = DiffTypeExtra) := by
  refine ⟨ComputeDiff_names desired observed, ?_, ?_⟩
  · intro r hr
    have hlen : desired.length = (desired.map (diffDesired (buildMap observed))).length := by
      simp
    rw [ComputeDiff_eq, hlen, List.take_left, List.mem_map] at hr
    obtain ⟨d, _, rfl⟩ := hr
    have hne := diffDesired_Typ_ne_extra (buildMap observed) d
    cases hT : (diffDesired (buildMap observed) d).Typ <;> simp_all
  · intro r hr
    have hlen : desired.length = (desired.map (diffDesired (buildMap observed))).length := by
      simp
    rw [ComputeDiff_eq, hlen, List.drop_left, List.mem_map] at hr
    obtain ⟨c, _, rfl⟩ := hr
    rfl

/-! ## Lemmas on the apply loop of `runSync` -/

theorem runCalls_append (client : Mutator) (hist as bs : List Call) :
    runCalls client hist (as ++ bs)
      = runCalls client hist as ++ runCalls client (hist ++ as) bs := by
  induction as generalizing hist with
  | nil => simp [runCalls]
  | cons a as ih => simp [runCalls, ih]

theorem runCalls_calls (client : Mutator) (hist cs : List Call) :
    (runCalls client hist cs).map Prod.fst = cs := by
  induction cs generalizing hist with
  | nil => simp [runCalls]
  | cons c cs ih => simp [runCalls, ih]

theorem succeeded_append (kind : Call → Bool) (l₁ l₂ : List (Call × Bool)) :
    succeeded kind (l₁ ++ l₂) = succeeded kind l₁ + succeeded kind l₂ := by
  simp [succeeded, List.countP_append]

/-- One step of the apply loop on a record whose pointer is set where it is
dereferenced: the planned calls are issued and each success is counted. -/
theorem syncStep_eq (client : Mutator) (force del : Bool) (st : ApplyState) (d : LabelDiff)
    (hwf : d.Typ = DiffTypeCreate ∨ d.Typ = DiffTypeUpdate → d.Desired.isSome = true) :
    syncStep client force del st d
      = some
          { log := st.log ++ runCalls client (st.log.map Prod.fst) (plannedCalls force del d),
            created := st.created
              + succeeded Call.isCreate
                  (runCalls client (st.log.map Prod.fst) (plannedCalls force del d)),
            updated := st.updated
              + succeeded Call.isUpdate
                  (runCalls client (st.log.map Prod.fst) (plannedCalls force del d)),
            deleted := st.deleted
              + succeeded Call.isDelete
                  (runCalls client (st.log.map Prod.fst) (plannedCalls force del d)) } := by
  obtain ⟨T, name, des, cur, cc, dc⟩ := d
  cases T <;> cases des <;> cases force <;> cases del <;>
    simp [syncStep, plannedCalls, runCalls, issue, succeeded, Call.isCreate, Call.isUpdate,
      Call.isDelete] at hwf ⊢ <;>
    split <;> simp_all

/-- The apply loop on records whose pointers are set where dereferenced: it
runs to completion, the log grows by the planned calls of all records in
order, and each counter grows by the successes of its kind. -/
theorem syncApply_eq (client : Mutator) (force del : Bool) (diffs : List LabelDiff)
    (st : ApplyState)
    (hwf : ∀ d ∈ diffs, d.Typ = DiffTypeCreate ∨ d.Typ = DiffTypeUpdate →
      d.Desired.isSome = true) :
    syncApply client force del st diffs
      = { outcome := .completed
            (st.created + succeeded Call.isCreate
              (runCalls client (st.log.map Prod.fst) (diffs.flatMap (plannedCalls force del))))
            (st.updated + succeeded Call.isUpdate
              (runCalls client (st.log.map Prod.fst) (diffs.flatMap (plannedCalls force del))))
            (st.deleted + succeeded Call.isDelete
              (runCalls client (st.log.map Prod.fst) (diffs.flatMap (plannedCalls force del)))),
          log := st.log
            ++ runCalls client (st.log.map Prod.fst)
                (diffs.flatMap (plannedCalls force del)) } := by
  induction diffs generalizing st with
  | nil => simp [syncApply, runCalls, succeeded]
  | cons d ds ih =>
    have hd := syncStep_eq client force del st d (hwf d (List.mem_cons_self _ _))
    have hds : ∀ d ∈ ds, d.Typ = DiffTypeCreate ∨ d.Typ = DiffTypeUpdate →
        d.Desired.isSome = true := fun x hx => hwf x (List.mem_cons_of_mem _ hx)
    rw [syncApply, hd]
    simp only []
    rw [ih _ hds, List.flatMap_cons, runCalls_append]
    simp only [List.map_append, runCalls_calls, succeeded_append, List.append_assoc,
      Nat.add_assoc]

theorem succeeded_alwaysOk (kind : Call → Bool) (hist cs : List Call) :
    succeeded kind (runCalls alwaysOk hist cs) = cs.countP kind := by
  induction cs generalizing hist with
  | nil => simp [runCalls, succeeded]
  | cons c cs ih =>
    have ih' := ih (hist ++ [c])
    simp only [succeeded] at ih' ⊢
    simp only [runCalls, List.countP_cons, ih', alwaysOk, Bool.and_true]

theorem succeeded_le (kind : Call → Bool) (log : List (Call × Bool)) :
    succeeded kind log ≤ (log.map Prod.fst).countP kind := by
  induction log with
  | nil => simp [succeeded]
  | cons e es ih =>
    simp only [succeeded] at ih ⊢
    simp only [List.map_cons, List.countP_cons]
    have : (if (kind e.1 && e.2) = true then 1 else 0)
        ≤ (if kind e.1 = true then 1 else 0) := by
      cases kind e.1 <;> cases e.2 <;> simp
    omega

theorem planned_update_count (force del : Bool) (diffs : List LabelDiff)
    (hwf : ∀ d ∈ diffs, d.Typ = DiffTypeCreate ∨ d.Typ = DiffTypeUpdate →
      d.Desired.isSome = true) :
    (diffs.flatMap (plannedCalls force del)).countP Call.isUpdate
      = if force then diffs.countP (fun d => decide (d.Typ = DiffTypeUpdate)) else 0 := by
  induction diffs with
  | nil => simp
  | cons d ds ih =>
    have hd := hwf d (List.mem_cons_self _ _)
    have hds : ∀ d ∈ ds, d.Typ = DiffTypeCreate ∨ d.Typ = DiffTypeUpdate →
        d.Desired.isSome = true := fun x hx => hwf x (List.mem_cons_of_mem _ hx)
    rw [List.flatMap_cons, List.countP_append, ih hds, List.countP_cons]
    obtain ⟨T, name, des, cur, cc, dc⟩ := d
    cases T <;> cases des <;> cases force <;> cases del <;>
      simp [plannedCalls, Call.isUpdate] at hd ⊢ <;> omega

/-! ## Color normalization and the end-to-end scenario -/

/-- C4, the code at the failing input: `NormalizeColor` strips the leading `#`
of `#ff0000` but leaves the capitals of `FF0000` as they are, so the two
colors do not normalize to the same string. -/
theorem NormalizeColor_keeps_case :
    NormalizeColor "#ff0000" = "ff0000"
    ∧ NormalizeColor "FF0000" = "FF0000"
    ∧ NormalizeColor "FF0000" ≠ NormalizeColor "#ff0000" := by
  decide

/-- C5, the code at the scenario: `ComputeDiff` classifies `bug` as an `Update`
with `ColorChange` set (not as a `Match`), then `docs` as `Create` and `stale`
as `Extra`; the apply loop with force and delete-unmanaged unset and a client
that always succeeds issues the single call create(docs) and ends with
created 1, updated 0, deleted 0. -/
theorem scenario_diff_and_apply :
    (ComputeDiff scenarioDesired scenarioObserved).map
        (fun r => (r.Typ, r.Name, r.ColorChange, r.DescChange))
      = [ (DiffTypeUpdate, "bug", true, false), (DiffTypeCreate, "docs", false, false),
          (DiffTypeExtra, "stale", false, false) ]
    ∧ syncApply alwaysOk false false {} (ComputeDiff scenarioDesired scenarioObserved)
      = { outcome := .completed 1 0 0,
          log := [(.CreateLabel ⟨"docs", "0075ca", ""⟩, true)] } := by
  decide

/-! ## The apply loop of `runSync` -/

/-- C6: on diff records that carry a desired label whenever they are `Create`
or `Update`, the calls of the apply loop are, in record order, the planned
calls: a create for every `Create` record, an update for every `Update` record
exactly when force is set, a delete for every `Extra` record exactly when
delete-unmanaged is set, nothing for a `Match`.  With one `Update` record,
force unset gives no update call and updated 0; force set and a client that
always succeeds gives one update call and updated 1. -/
theorem syncApply_calls (client : Mutator) (force del : Bool) (diffs : List LabelDiff)
    (hwf : ∀ d ∈ diffs, d.Typ = DiffTypeCreate ∨ d.Typ = DiffTypeUpdate →
      d.Desired.isSome = true) :
    (syncApply client force del {} diffs).log.map Prod.fst
      = diffs.flatMap (plannedCalls force del)
    ∧ (diffs.countP (fun d => decide (d.Typ = DiffTypeUpdate)) = 1 →
        ((syncApply client false del {} diffs).log.countP (fun e => e.1.isUpdate) = 0
          ∧ ∃ c x, (syncApply client false del {} diffs).outcome = .completed c 0 x)
        ∧ ((syncApply alwaysOk true del {} diffs).log.countP (fun e => e.1.isUpdate) = 1
          ∧ ∃ c x, (syncApply alwaysOk true del {} diffs).outcome = .completed c 1 x)) := by
  constructor
  · rw [syncApply_eq client force del diffs {} hwf]
    simp [runCalls_calls]
  · intro hone
    have hcalls : ∀ (cl : Mutator) (f : Bool),
        (syncApply cl f del {} diffs).log.countP (fun e => e.1.isUpdate)
          = if f then diffs.countP (fun d => decide (d.Typ = DiffTypeUpdate)) else 0 := by
      intro cl f
      rw [syncApply_eq cl f del diffs {} hwf, ← planned_update_count f del diffs hwf]
      have h := List.countP_map Call.isUpdate Prod.fst
        (runCalls cl [] (diffs.flatMap (plannedCalls f del)))
      rw [runCalls_calls] at h
      simpa [Function.comp_def] using h.symm
    refine ⟨⟨by simpa using hcalls client false, ?_⟩, ⟨by simpa [hone] using hcalls alwaysOk true, ?_⟩⟩
    · rw [syncApply_eq client false del diffs {} hwf]
      have hle := succeeded_le Call.isUpdate
        (runCalls client [] (diffs.flatMap (plannedCalls false del)))
      rw [runCalls_calls, planned_update_count false del diffs hwf] at hle
      have hz : succeeded Call.isUpdate
          (runCalls client [] (diffs.flatMap (plannedCalls false del))) = 0 := by
        simpa using hle
      simp only [List.map_nil]
      rw [hz]
      exact ⟨_, _, rfl⟩
    · rw [syncApply_eq alwaysOk true del diffs {} hwf]
      have h1 : succeeded Call.isUpdate
          (runCalls alwaysOk [] (diffs.flatMap (plannedCalls true del))) = 1 := by
        rw [succeeded_alwaysOk, planned_update_count true del diffs hwf]
        simpa using hone
      simp only [List.map_nil]
      rw [h1]
      exact ⟨_, _, rfl⟩

/-- C6, witness: a diff list with one record of each type, under force and
delete-unmanaged. -/
theorem syncApply_calls_witness :
    (∀ d ∈ exampleDiffs,
      d.Typ = DiffTypeCreate ∨ d.Typ = DiffTypeUpdate → d.Desired.isSome = true)
    ∧ exampleDiffs.countP (fun d => decide (d.Typ = DiffTypeUpdate)) = 1
    ∧ (syncApply secondFails true true {} exampleDiffs).log.map Prod.fst
      = [.UpdateLabel "bug" ⟨"bug", "d73a4a", ""⟩, .CreateLabel ⟨"docs", "0075ca", ""⟩,
         .DeleteLabel "stale"]
    ∧ (syncApply secondFails false true {} exampleDiffs).log.countP (fun e => e.1.isUpdate) = 0
    ∧ (syncApply alwaysOk true true {} exampleDiffs).log.countP (fun e => e.1.isUpdate) = 1 :=
  ⟨by decide, by decide,
   (syncApply_calls secondFails true true exampleDiffs (by decide)).1.trans (by decide),
   ((syncApply_calls secondFails true true exampleDiffs (by decide)).2 (by decide)).1.1,
   ((syncApply_calls secondFails true true exampleDiffs (by decide)).2 (by decide)).2.1⟩

/-- C7: on diff records that carry a desired label whenever they are `Create`
or `Update`, whatever calls fail, the loop issues the same calls as with a
client that always succeeds, runs to completion, and reports as created,
updated and deleted the numbers of create, update and delete calls that
succeeded.  On three `Create` records with a client whose second call fails,
three creates are issued and created is 2. -/
theorem syncApply_continues_after_failure (client : Mutator) (force del : Bool)
    (diffs : List LabelDiff)
    (hwf : ∀ d ∈ diffs, d.Typ = DiffTypeCreate ∨ d.Typ = DiffTypeUpdate →
      d.Desired.isSome = true) :
    (syncApply client force del {} diffs).log.map Prod.fst
      = (syncApply alwaysOk force del {} diffs).log.map Prod.fst
    ∧ (syncApply client force del {} diffs).outcome
      = .completed
          (succeeded Call.isCreate (syncApply client force del {} diffs).log)
          (succeeded Call.isUpdate (syncApply client force del {} diffs).log)
          (succeeded Call.isDelete (syncApply client force del {} diffs).log)
    ∧ ∀ a b c : Label,
        syncApply secondFails force del {}
          [ { Typ := DiffTypeCreate, Name := a.Name, Desired := some a },
            { Typ := DiffTypeCreate, Name := b.Name, Desired := some b },
            { Typ := DiffTypeCreate, Name := c.Name, Desired := some c } ]
        = { outcome := .completed 2 0 0,
            log := [ (.CreateLabel ⟨a.Name, a.Color, a.Description⟩, true),
                     (.CreateLabel ⟨b.Name, b.Color, b.Description⟩, false),
                     (.CreateLabel ⟨c.Name, c.Color, c.Description⟩, true) ] } := by
  refine ⟨?_, ?_, ?_⟩
  · rw [syncApply_eq client force del diffs {} hwf, syncApply_eq alwaysOk force del diffs {} hwf]
    simp [runCalls_calls]
  · rw [syncApply_eq client force del diffs {} hwf]
    simp
  · intro a b c
    simp [syncApply, syncStep, issue, secondFails]

/-- C7, witness: three creates, the second of which fails. -/
theorem syncApply_continues_after_failure_witness :
    (∀ d ∈ exampleDiffs,
      d.Typ = DiffTypeCreate ∨ d.Typ = DiffTypeUpdate → d.Desired.isSome = true)
    ∧ (syncApply secondFails true true {} exampleDiffs).log.map Prod.fst
      = (syncApply alwaysOk true true {} exampleDiffs).log.map Prod.fst
    ∧ (syncApply secondFails true true {} exampleDiffs).outcome = .completed 0 1 1 :=
  ⟨by decide,
   (syncApply_continues_after_failure secondFails true true exampleDiffs (by decide)).1,
   (syncApply_continues_after_failure secondFails true true exampleDiffs
      (by decide)).2.1.trans (by decide)⟩

/-! ## Lemmas on `Summary`, `FormatDiff` and the gates of the commands -/

theorem Summary_foldl (diffs : List LabelDiff) (c : Counts) :
    diffs.foldl (fun c diff =>
      match diff.Typ with
      | DiffTypeMatch => { c with nmatches := c.nmatches + 1 }
      | DiffTypeCreate => { c with creates := c.creates + 1 }
      | DiffTypeUpdate => { c with updates := c.updates + 1 }
      | DiffTypeExtra => { c with extras := c.extras + 1 }) c
    = { nmatches := c.nmatches + diffs.countP (fun d => decide (d.Typ = DiffTypeMatch)),
        creates := c.creates + diffs.countP (fun d => decide (d.Typ = DiffTypeCreate)),
        updates := c.updates + diffs.countP (fun d => decide (d.Typ = DiffTypeUpdate)),
        extras := c.extras + diffs.countP (fun d => decide (d.Typ = DiffTypeExtra)) } := by
  induction diffs generalizing c with
  | nil => simp
  | cons d ds ih =>
    rw [List.foldl_cons, ih]
    cases hT : d.Typ <;> simp [List.countP_cons, hT] <;> omega

/-- `Summary` counts the records of each type. -/
theorem Summary_eq (diffs : List LabelDiff) :
    Summary diffs
      = { nmatches := diffs.countP (fun d => decide (d.Typ = DiffTypeMatch)),
          creates := diffs.countP (fun d => decide (d.Typ = DiffTypeCreate)),
          updates := diffs.countP (fun d => decide (d.Typ = DiffTypeUpdate)),
          extras := diffs.countP (fun d => decide (d.Typ = DiffTypeExtra)) } := by
  unfold Summary
  rw [Summary_foldl]
  simp

theorem syncTotalChanges_eq (force del : Bool) (diffs : List LabelDiff) :
    syncTotalChanges force del diffs = actionable force del diffs := by
  unfold syncTotalChanges actionable
  rw [Summary_eq]
  cases force <;> cases del <;> simp

theorem cloneTotalChanges_eq (force : Bool) (diffs : List LabelDiff) :
    cloneTotalChanges force diffs = actionable force false diffs := by
  unfold cloneTotalChanges actionable
  rw [Summary_eq]
  cases force <;> simp

/-- Every record of `ComputeDiff` carries a desired label when it is a `Create`
or an `Update`, and a current label when it is an `Update`. -/
theorem ComputeDiff_pointers (desired current : List Label) :
    ∀ r ∈ ComputeDiff desired current,
      (r.Typ = DiffTypeCreate ∨ r.Typ = DiffTypeUpdate → r.Desired.isSome = true)
      ∧ (r.Typ = DiffTypeUpdate → r.Current.isSome = true) := by
  intro r hr
  rw [ComputeDiff_eq, List.mem_append, List.mem_map, List.mem_map] at hr
  rcases hr with ⟨d, _, rfl⟩ | ⟨c, _, rfl⟩
  · cases hb : buildMap current d.Name with
    | none => rw [diffDesired_of_none _ _ hb]; simp
    | some o =>
      have hs := diffDesired_of_some _ _ _ hb
      simp [hs.2.1, hs.2.2.1]
  · simp [extraRecord]

theorem formatRecord_isSome (verbose : Bool) (r : LabelDiff)
    (h : (r.Typ = DiffTypeCreate ∨ r.Typ = DiffTypeUpdate → r.Desired.isSome = true)
      ∧ (r.Typ = DiffTypeUpdate → r.Current.isSome = true)) :
    ∃ line, formatRecord verbose r = some line := by
  obtain ⟨T, name, des, cur, cc, dc⟩ := r
  cases T <;> cases des <;> cases cur <;> cases cc <;> cases verbose <;>
    simp [formatRecord] at h ⊢

theorem foldlM_format_isSome (verbose : Bool) (diffs : List LabelDiff) (sb : String)
    (h : ∀ r ∈ diffs,
      (r.Typ = DiffTypeCreate ∨ r.Typ = DiffTypeUpdate → r.Desired.isSome = true)
      ∧ (r.Typ = DiffTypeUpdate → r.Current.isSome = true)) :
    ∃ text, diffs.foldlM
      (fun sb d => (formatRecord verbose d).map (fun line => sb ++ line)) sb = some text := by
  induction diffs generalizing sb with
  | nil => exact ⟨sb, rfl⟩
  | cons d ds ih =>
    obtain ⟨line, hline⟩ := formatRecord_isSome verbose d (h d (List.mem_cons_self _ _))
    rw [List.foldlM_cons, hline]
    exact ih _ (fun x hx => h x (List.mem_cons_of_mem _ hx))

/-- `FormatDiff` never dereferences `nil` on the output of `ComputeDiff`. -/
theorem FormatDiff_ComputeDiff (desired current : List Label) (verbose : Bool) :
    ∃ text, FormatDiff (ComputeDiff desired current) verbose = some text :=
  foldlM_format_isSome verbose _ _ (ComputeDiff_pointers desired current)

/-- The run of `runSync` once the file is parsed to a non-empty list, the
client is created and the labels are listed: the three gates, then the apply
loop. -/
theorem runSync_reached (fl : SyncFlags) (strings : GoStrings) (w : SyncWorld)
    (desired observed : List Label)
    (hp : ParseFile fl.syncFile w.file = .ok desired) (hne : desired ≠ [])
    (hc : w.newClientError = none) (hl : w.listLabels = .ok observed) :
    runSync fl strings w
      = if actionable fl.syncForce fl.syncDeleteUnmanaged (ComputeDiff desired observed) = 0
        then { outcome := .inSync, log := [] }
        else if fl.syncDryRun then { outcome := .dryRun, log := [] }
        else if fl.syncYes then
          syncApply w.client fl.syncForce fl.syncDeleteUnmanaged {}
            (ComputeDiff desired observed)
        else
          match w.readString with
          | .error err => { outcome := .failed err, log := [] }
          | .ok response =>
            if strings.TrimSpace (strings.ToLower response) ≠ "y"
                ∧ strings.TrimSpace (strings.ToLower response) ≠ "yes" then
              { outcome := .cancelled, log := [] }
            else
              syncApply w.client fl.syncForce fl.syncDeleteUnmanaged {}
                (ComputeDiff desired observed) := by
  obtain ⟨text, htext⟩ := FormatDiff_ComputeDiff desired observed false
  have hlen : ¬ desired.length = 0 := by
    intro h; exact hne (List.length_eq_zero.1 h)
  unfold runSync
  rw [hp]
  simp only [hlen, if_false, hc, hl, htext, syncTotalChanges_eq]

/-- The run of `runClone` once both repositories are listed and the source
list is non-empty: the in-sync gate, then the apply loop. -/
theorem runClone_reached (force : Bool) (repoFlag : String) (w : CloneWorld)
    (source target : List Label)
    (hr : repoFlag ≠ "") (hsc : w.sourceClientError = none)
    (hs : w.sourceLabels = .ok source) (hne : source ≠ [])
    (htc : w.targetClientError = none) (ht : w.targetLabels = .ok target) :
    runClone force repoFlag w
      = if actionable force false (ComputeDiff source target) = 0
        then { outcome := .inSync, log := [] }
        else cloneApply w.client force {} (ComputeDiff source target) := by
  obtain ⟨text, htext⟩ := FormatDiff_ComputeDiff source target false
  have hlen : ¬ source.length = 0 := by
    intro h; exact hne (List.length_eq_zero.1 h)
  unfold runClone
  simp only [hr, hlen, if_false, hsc, hs, htc, ht, htext, cloneTotalChanges_eq]

theorem ComputeDiff_self_match (L : List Label)
    (hagree : ∀ a ∈ L, ∀ b ∈ L, a.Name = b.Name →
      NormalizeColor a.Color = NormalizeColor b.Color ∧ a.Description = b.Description) :
    ∀ r ∈ ComputeDiff L L, r.Typ = DiffTypeMatch := by
  intro r hr
  rw [ComputeDiff_eq, List.mem_append, List.mem_map, List.mem_map] at hr
  rcases hr with ⟨d, hd, rfl⟩ | ⟨c, hc, rfl⟩
  · cases hb : buildMap L d.Name with
    | none =>
      exact absurd (List.mem_map_of_mem Label.Name hd) ((buildMap_eq_none_iff L d.Name).1 hb)
    | some o =>
      have ho := buildMap_some L d.Name o hb
      exact (diffDesired_of_some _ _ _ hb).2.2.2.1.2 (hagree o ho.1 d hd ho.2)
  · rw [List.mem_filter] at hc
    exact absurd (List.mem_map_of_mem Label.Name hc.1) (of_decide_eq_true hc.2)

theorem actionable_of_all_match (force del : Bool) (diffs : List LabelDiff)
    (h : ∀ r ∈ diffs, r.Typ = DiffTypeMatch) :
    diffs.countP (fun d => decide (d.Typ = DiffTypeCreate)) = 0
    ∧ diffs.countP (fun d => decide (d.Typ = DiffTypeUpdate)) = 0
    ∧ diffs.countP (fun d => decide (d.Typ = DiffTypeExtra)) = 0
    ∧ actionable force del diffs = 0 := by
  have h1 : diffs.countP (fun d => decide (d.Typ = DiffTypeCreate)) = 0 := by
    rw [List.countP_eq_zero]; intro r hr; simp [h r hr]
  have h2 : diffs.countP (fun d => decide (d.Typ = DiffTypeUpdate)) = 0 := by
    rw [List.countP_eq_zero]; intro r hr; simp [h r hr]
  have h3 : diffs.countP (fun d => decide (d.Typ = DiffTypeExtra)) = 0 := by
    rw [List.countP_eq_zero]; intro r hr; simp [h r hr]
  refine ⟨h1, h2, h3, ?_⟩
  unfold actionable
  rw [h1, h2, h3]
  simp

/-! ## The gates of `runSync` -/

/-- C8: `runSync` issues a call only if the file parsed, the labels were
listed, the actionable count of the diff is positive, dry-run is unset, and
either `--yes` was given or the response read from the operator, lower-cased
and trimmed, is `y` or `yes`.  Once the diff is reached, a zero actionable
count ends the run as in sync, a positive count under dry-run ends it as a dry
run, and a response that is neither `y` nor `yes` ends it as cancelled: each
time with no call and without error. -/
theorem runSync_gates (fl : SyncFlags) (strings : GoStrings) (w : SyncWorld) :
    ((runSync fl strings w).log ≠ [] →
      ∃ desired observed,
        ParseFile fl.syncFile w.file = .ok desired ∧ w.listLabels = .ok observed
        ∧ 0 < actionable fl.syncForce fl.syncDeleteUnmanaged (ComputeDiff desired observed)
        ∧ fl.syncDryRun = false
        ∧ (fl.syncYes = true
          ∨ ∃ response, w.readString = .ok response
            ∧ (strings.TrimSpace (strings.ToLower response) = "y"
              ∨ strings.TrimSpace (strings.ToLower response) = "yes")))
    ∧ ∀ desired observed,
        ParseFile fl.syncFile w.file = .ok desired → desired ≠ [] →
        w.newClientError = none → w.listLabels = .ok observed →
        (actionable fl.syncForce fl.syncDeleteUnmanaged (ComputeDiff desired observed) = 0 →
          runSync fl strings w = { outcome := .inSync, log := [] })
        ∧ (0 < actionable fl.syncForce fl.syncDeleteUnmanaged (ComputeDiff desired observed) →
            fl.syncDryRun = true →
            runSync fl strings w = { outcome := .dryRun, log := [] })
        ∧ (0 < actionable fl.syncForce fl.syncDeleteUnmanaged (ComputeDiff desired observed) →
            fl.syncDryRun = false → fl.syncYes = false →
            ∀ response, w.readString = .ok response →
              strings.TrimSpace (strings.ToLower response) ≠ "y" →
              strings.TrimSpace (strings.ToLower response) ≠ "yes" →
              runSync fl strings w = { outcome := .cancelled, log := [] }) := by
  constructor
  · intro hlog
    cases hp : ParseFile fl.syncFile w.file with
    | error err => simp [runSync, hp] at hlog
    | ok desired =>
      by_cases hne : desired = []
      · simp [runSync, hp, hne] at hlog
      · cases hc : w.newClientError with
        | some err =>
          have hlen : ¬ desired.length = 0 := fun h => hne (List.length_eq_zero.1 h)
          simp [runSync, hp, hlen, hc] at hlog
        | none =>
          cases hl : w.listLabels with
          | error err =>
            have hlen : ¬ desired.length = 0 := fun h => hne (List.length_eq_zero.1 h)
            simp [runSync, hp, hlen, hc, hl] at hlog
          | ok observed =>
            rw [runSync_reached fl strings w desired observed hp hne hc hl] at hlog
            refine ⟨desired, observed, rfl, rfl, ?_⟩
            by_cases ha : actionable fl.syncForce fl.syncDeleteUnmanaged
                (ComputeDiff desired observed) = 0
            · simp [ha] at hlog
            · rw [if_neg ha] at hlog
              refine ⟨Nat.pos_of_ne_zero ha, ?_⟩
              cases hdry : fl.syncDryRun with
              | true => simp [hdry] at hlog
              | false =>
                refine ⟨rfl, ?_⟩
                cases hyes : fl.syncYes with
                | true => exact Or.inl rfl
                | false =>
                  right
                  cases hread : w.readString with
                  | error err => simp [hdry, hyes, hread] at hlog
                  | ok response =>
                    refine ⟨response, rfl, ?_⟩
                    by_contra hno
                    rw [not_or] at hno
                    simp [hdry, hyes, hread, hno.1, hno.2] at hlog
  · intro desired observed hp hne hc hl
    rw [runSync_reached fl strings w desired observed hp hne hc hl]
    refine ⟨?_, ?_, ?_⟩
    · intro ha
      rw [if_pos ha]
    · intro ha hdry
      rw [if_neg (Nat.pos_iff_ne_zero.1 ha)]
      simp [hdry]
    · intro ha hdry hyes response hread h1 h2
      rw [if_neg (Nat.pos_iff_ne_zero.1 ha)]
      simp [hdry, hyes, hread, h1, h2]

/-- C8, witness: an operator who answers `n` cancels the creation of `docs`,
and a run that issued a call was not a dry run. -/
theorem runSync_gates_witness :
    runSync ⟨"labels.yml", false, false, false, false⟩ asciiStrings
        (exampleWorld scenarioDesired scenarioObserved "n\n")
      = { outcome := .cancelled, log := [] }
    ∧ (runSync ⟨"labels.yml", false, false, false, false⟩ asciiStrings
        (exampleWorld scenarioDesired scenarioObserved " YES\n")).log ≠ []
    ∧ ∃ desired observed,
        ParseFile "labels.yml" (exampleWorld scenarioDesired scenarioObserved " YES\n").file
          = .ok desired
        ∧ (exampleWorld scenarioDesired scenarioObserved " YES\n").listLabels = .ok observed
        ∧ 0 < actionable false false (ComputeDiff desired observed)
        ∧ false = false
        ∧ (false = true
          ∨ ∃ response,
            (exampleWorld scenarioDesired scenarioObserved " YES\n").readString = .ok response
            ∧ (asciiStrings.TrimSpace (asciiStrings.ToLower response) = "y"
              ∨ asciiStrings.TrimSpace (asciiStrings.ToLower response) = "yes")) :=
  ⟨((runSync_gates ⟨"labels.yml", false, false, false, false⟩ asciiStrings
      (exampleWorld scenarioDesired scenarioObserved "n\n")).2
    scenarioDesired scenarioObserved rfl (by decide) rfl rfl).2.2
    (by decide) rfl rfl "n\n" rfl (by decide) (by decide),
   by decide,
   (runSync_gates ⟨"labels.yml", false, false, false, false⟩ asciiStrings
      (exampleWorld scenarioDesired scenarioObserved " YES\n")).1 (by decide)⟩

/-! ## Colors in the payload of the calls -/

/-- C9, the code at the failing input: a label file read from standard input
(`--file -`) with the color `#ff0000` makes `runSync` issue a create call that
carries `#ff0000`, the `#` included, while the same labels read from a `.yml`
file make it carry `ff0000`. -/
theorem runSync_stdin_color_not_normalized :
    runSync ⟨"-", false, false, false, true⟩ asciiStrings
        (exampleWorld [⟨"bug", "#ff0000", ""⟩] [] "")
      = { outcome := .completed 1 0 0,
          log := [(.CreateLabel ⟨"bug", "#ff0000", ""⟩, true)] }
    ∧ NormalizeColor "#ff0000" ≠ "#ff0000"
    ∧ runSync ⟨"labels.yml", false, false, false, true⟩ asciiStrings
        (exampleWorld [⟨"bug", "#ff0000", ""⟩] [] "")
      = { outcome := .completed 1 0 0,
          log := [(.CreateLabel ⟨"bug", "ff0000", ""⟩, true)] } := by
  decide

/-! ## A list diffed against itself -/

/-- C10 (amended): when the labels of `L` that share a name agree in
normalized color and in description, `ComputeDiff L L` holds only `Match`
records, `Summary` counts no create, update or extra, and the actionable
count is zero under every policy; when moreover `L` is not empty, `runSync`
with the file parsed to `L` and the repository listing `L`, and `runClone`
with source and target listing `L`, end as in sync with no call. -/
theorem ComputeDiff_self_in_sync (L : List Label)
    (hagree : ∀ a ∈ L, ∀ b ∈ L, a.Name = b.Name →
      NormalizeColor a.Color = NormalizeColor b.Color ∧ a.Description = b.Description) :
    (∀ r ∈ ComputeDiff L L, r.Typ = DiffTypeMatch)
    ∧ (Summary (ComputeDiff L L)).creates = 0
    ∧ (Summary (ComputeDiff L L)).updates = 0
    ∧ (Summary (ComputeDiff L L)).extras = 0
    ∧ (∀ force del, actionable force del (ComputeDiff L L) = 0)
    ∧ (L ≠ [] → ∀ (fl : SyncFlags) (strings : GoStrings) (w : SyncWorld),
        ParseFile fl.syncFile w.file = .ok L → w.newClientError = none →
        w.listLabels = .ok L →
        runSync fl strings w = { outcome := .inSync, log := [] })
    ∧ (L ≠ [] → ∀ (force : Bool) (repoFlag : String) (w : CloneWorld),
        repoFlag ≠ "" → w.sourceClientError = none → w.sourceLabels = .ok L →
        w.targetClientError = none → w.targetLabels = .ok L →
        runClone force repoFlag w = { outcome := .inSync, log := [] }) := by
  have hall := ComputeDiff_self_match L hagree
  have hcount := fun force del => actionable_of_all_match force del (ComputeDiff L L) hall
  refine ⟨hall, ?_, ?_, ?_, fun force del => (hcount force del).2.2.2, ?_, ?_⟩
  · rw [Summary_eq]; exact (hcount false false).1
  · rw [Summary_eq]; exact (hcount false false).2.1
  · rw [Summary_eq]; exact (hcount false false).2.2.1
  · intro hne fl strings w hp hc hl
    rw [runSync_reached fl strings w L L hp hne hc hl, if_pos (hcount _ _).2.2.2]
  · intro hne force repoFlag w hr hsc hs htc ht
    rw [runClone_reached force repoFlag w L L hr hsc hs hne htc ht, if_pos (hcount _ _).2.2.2]

/-- C10, witness: the scenario's desired list against itself. -/
theorem ComputeDiff_self_in_sync_witness :
    (∀ r ∈ ComputeDiff scenarioDesired scenarioDesired, r.Typ = DiffTypeMatch)
    ∧ runSync ⟨"labels.yml", false, true, true, true⟩ asciiStrings
        (exampleWorld scenarioDesired scenarioDesired "")
      = { outcome := .inSync, log := [] }
    ∧ runClone true "owner/target" (exampleCloneWorld scenarioDesired scenarioDesired)
      = { outcome := .inSync, log := [] } :=
  ⟨(ComputeDiff_self_in_sync scenarioDesired (by decide)).1,
   (ComputeDiff_self_in_sync scenarioDesired (by decide)).2.2.2.2.2.1 (by decide)
      ⟨"labels.yml", false, true, true, true⟩ asciiStrings
      (exampleWorld scenarioDesired scenarioDesired "") rfl rfl rfl,
   (ComputeDiff_self_in_sync scenarioDesired (by decide)).2.2.2.2.2.2 (by decide)
      true "owner/target" (exampleCloneWorld scenarioDesired scenarioDesired)
      (by decide) rfl rfl rfl rfl⟩

/-- C10, counterexample: a list with the name `bug` under two colors, diffed
against itself, yields an `Update` record, so that the actionable count under force is 1 and
a forced sync of it updates a label; and on the empty list `runSync` and `runClone` end with an
error instead of reporting in sync. -/
theorem ComputeDiff_self_fails :
    (ComputeDiff duplicateLabels duplicateLabels).map LabelDiff.Typ
      = [DiffTypeUpdate, DiffTypeMatch]
    ∧ (Summary (ComputeDiff duplicateLabels duplicateLabels)).updates = 1
    ∧ actionable true false (ComputeDiff duplicateLabels duplicateLabels) = 1
    ∧ (runSync ⟨"labels.yml", false, true, false, true⟩ asciiStrings
        (exampleWorld duplicateLabels duplicateLabels "")).outcome = .completed 0 1 0
    ∧ runSync ⟨"labels.yml", false, false, false, true⟩ asciiStrings (exampleWorld [] [] "")
      = { outcome := .failed "no labels found in file", log := [] }
    ∧ runClone false "owner/target" (exampleCloneWorld [] [])
      = { outcome := .failed "no labels found in source repository", log := [] } := by
  decide

/-! ## Lemmas on the pointers of the records and on the apply loop of `runClone` -/

/-- What the first loop of `ComputeDiff` stores in the record of a desired
label: the label itself as `Desired`, and as `Current` the observed label the
lookup found, if any. -/
theorem diffDesired_fields (observed : List Label) (d : Label) :
    (diffDesired (buildMap observed) d).Desired = some d
    ∧ (diffDesired (buildMap observed) d).Name = d.Name
    ∧ (diffDesired (buildMap observed) d).Typ ≠ DiffTypeExtra
    ∧ ((diffDesired (buildMap observed) d).Current.isSome = true
        ↔ (diffDesired (buildMap observed) d).Typ ≠ DiffTypeCreate)
    ∧ ∀ c, (diffDesired (buildMap observed) d).Current = some c →
        c ∈ observed ∧ c.Name = d.Name := by
  refine ⟨?_, diffDesired_Name _ d, diffDesired_Typ_ne_extra _ d, ?_⟩
  · cases hb : buildMap observed d.Name with
    | none => rw [diffDesired_of_none _ _ hb]
    | some o => exact (diffDesired_of_some _ _ _ hb).2.1
  · cases hb : buildMap observed d.Name with
    | none =>
      rw [diffDesired_of_none _ _ hb]
      simp
    | some o =>
      have hs := diffDesired_of_some _ _ _ hb
      have ho := buildMap_some observed d.Name o hb
      refine ⟨?_, ?_⟩
      · rw [hs.2.2.1]
        simp [hs.1]
      · intro c hc
        rw [hs.2.2.1] at hc
        cases hc
        exact ho

/-- On records that carry a desired label whenever they are `Create` or
`Update`, the apply loop of `runSync` does not panic. -/
theorem syncApply_not_panicked (client : Mutator) (force del : Bool) (diffs : List LabelDiff)
    (hwf : ∀ d ∈ diffs, d.Typ = DiffTypeCreate ∨ d.Typ = DiffTypeUpdate →
      d.Desired.isSome = true) :
    (syncApply client force del {} diffs).outcome ≠ .panicked := by
  rw [syncApply_eq client force del diffs {} hwf]
  simp

/-- One step of the apply loop of `runClone` is one step of the apply loop of
`runSync` with delete-unmanaged unset. -/
theorem cloneStep_eq_syncStep (client : Mutator) (force : Bool) (st : ApplyState)
    (d : LabelDiff) :
    cloneStep client force st d = syncStep client force false st d := by
  unfold cloneStep syncStep
  cases d.Typ <;> simp

/-- A step of the apply loop of `runSync` with delete-unmanaged unset leaves
the counter `deleted` alone and logs no delete call. -/
theorem syncStep_no_delete (client : Mutator) (force : Bool) (st st' : ApplyState)
    (d : LabelDiff) (h : syncStep client force false st d = some st') :
    st'.deleted = st.deleted
    ∧ ((∀ e ∈ st.log, e.1.isDelete = false) → ∀ e ∈ st'.log, e.1.isDelete = false) := by
  have key : ∀ (c : Call) (ok : Bool) (st'' : ApplyState), c.isDelete = false →
      st''.log = st.log ++ [(c, ok)] → st''.deleted = st.deleted →
      (st''.deleted = st.deleted
        ∧ ((∀ e ∈ st.log, e.1.isDelete = false) → ∀ e ∈ st''.log, e.1.isDelete = false)) := by
    intro c ok st'' hc hl hd
    refine ⟨hd, fun hlog e he => ?_⟩
    rw [hl, List.mem_append, List.mem_singleton] at he
    rcases he with he | he
    · exact hlog e he
    · rw [he]; exact hc
  obtain ⟨T, name, des, cur, cc, dc⟩ := d
  cases T with
  | DiffTypeCreate =>
    cases des with
    | none => simp [syncStep] at h
    | some l =>
      cases hok : client (st.log.map Prod.fst)
          (Call.CreateLabel ⟨l.Name, l.Color, l.Description⟩) <;>
        simp only [syncStep, issue, hok, Bool.false_eq_true, if_false, if_true,
          Option.some.injEq] at h <;>
        subst h <;>
        exact key (Call.CreateLabel ⟨l.Name, l.Color, l.Description⟩) _ _ rfl rfl rfl
  | DiffTypeUpdate =>
    cases force with
    | false =>
      simp only [syncStep, Bool.false_eq_true, if_false, Option.some.injEq] at h
      subst h
      exact ⟨rfl, fun hlog => hlog⟩
    | true =>
      cases des with
      | none => simp [syncStep] at h
      | some l =>
        cases hok : client (st.log.map Prod.fst)
            (Call.UpdateLabel name ⟨l.Name, l.Color, l.Description⟩) <;>
          simp only [syncStep, issue, hok, Bool.false_eq_true, if_false, if_true,
            Option.some.injEq] at h <;>
          subst h <;>
          exact key (Call.UpdateLabel name ⟨l.Name, l.Color, l.Description⟩) _ _ rfl rfl rfl
  | DiffTypeMatch =>
    simp only [syncStep, Option.some.injEq] at h
    subst h
    exact ⟨rfl, fun hlog => hlog⟩
  | DiffTypeExtra =>
    simp only [syncStep, Bool.false_eq_true, if_false, Option.some.injEq] at h
    subst h
    exact ⟨rfl, fun hlog => hlog⟩

/-- The apply loop of `runClone`, started with `deleted` at zero, is the
apply loop of `runSync` with delete-unmanaged unset. -/
theorem cloneApply_eq_syncApply (client : Mutator) (force : Bool) (diffs : List LabelDiff)
    (st : ApplyState) (hst : st.deleted = 0) :
    cloneApply client force st diffs = syncApply client force false st diffs := by
  induction diffs generalizing st with
  | nil => simp [cloneApply, syncApply, hst]
  | cons d ds ih =>
    rw [cloneApply, syncApply, cloneStep_eq_syncStep]
    cases hstep : syncStep client force false st d with
    | none => rfl
    | some st' =>
      simp only []
      exact ih st' ((syncStep_no_delete client force st st' d hstep).1.trans hst)

/-- The apply loop of `runSync` with delete-unmanaged unset logs no delete
call. -/
theorem syncApply_no_delete (client : Mutator) (force : Bool) (diffs : List LabelDiff)
    (st : ApplyState) (hlog : ∀ e ∈ st.log, e.1.isDelete = false) :
    ∀ e ∈ (syncApply client force false st diffs).log, e.1.isDelete = false := by
  induction diffs generalizing st with
  | nil => simpa [syncApply] using hlog
  | cons d ds ih =>
    rw [syncApply]
    cases hstep : syncStep client force false st d with
    | none => simpa using hlog
    | some st' =>
      simp only []
      exact ih st' ((syncStep_no_delete client force st st' d hstep).2 hlog)

/-- The apply loop of `runClone` ends in a panic or completes with `deleted`
reported as zero. -/
theorem cloneApply_deleted_zero (client : Mutator) (force : Bool) (diffs : List LabelDiff)
    (st : ApplyState) :
    ∀ c u x, (cloneApply client force st diffs).outcome = .completed c u x → x = 0 := by
  induction diffs generalizing st with
  | nil =>
    intro c u x h
    simp [cloneApply] at h
    exact h.2.2.symm
  | cons d ds ih =>
    intro c u x h
    rw [cloneApply] at h
    cases hstep : cloneStep client force st d with
    | none => simp [hstep] at h
    | some st' =>
      rw [hstep] at h
      exact ih st' c u x h

/-! ## The pointers of the diff records -/

/-- C11: in every record of `ComputeDiff`, `Desired` is present exactly when
the record is not an `Extra` and `Current` exactly when it is not a `Create`; a
present `Desired` is a desired-list label and a present `Current` an
observed-list label, each with the record's name, and the record at the
position of a desired label has that label as `Desired`.  Hence `FormatDiff`
and the apply loops of `runSync` and `runClone` never dereference `nil` on
the output of `ComputeDiff`. -/
theorem ComputeDiff_pointers_present (desired observed : List Label) :
    (∀ r ∈ ComputeDiff desired observed,
      (r.Desired.isSome = true ↔ r.Typ ≠ DiffTypeExtra)
      ∧ (r.Current.isSome = true ↔ r.Typ ≠ DiffTypeCreate)
      ∧ (∀ d, r.Desired = some d → d ∈ desired ∧ d.Name = r.Name)
      ∧ (∀ c, r.Current = some c → c ∈ observed ∧ c.Name = r.Name))
    ∧ (∀ i (hi : i < desired.length),
        ∃ r, (ComputeDiff desired observed)[i]? = some r ∧ r.Desired = some desired[i]
          ∧ r.Name = desired[i].Name)
    ∧ (∀ verbose, ∃ text, FormatDiff (ComputeDiff desired observed) verbose = some text)
    ∧ (∀ (client : Mutator) (force del : Bool),
        (syncApply client force del {} (ComputeDiff desired observed)).outcome ≠ .panicked)
    ∧ (∀ (client : Mutator) (force : Bool),
        (cloneApply client force {} (ComputeDiff desired observed)).outcome ≠ .panicked) := by
  have hwf : ∀ d ∈ ComputeDiff desired observed,
      d.Typ = DiffTypeCreate ∨ d.Typ = DiffTypeUpdate → d.Desired.isSome = true :=
    fun d hd => (ComputeDiff_pointers desired observed d hd).1
  refine ⟨?_, ?_, fun verbose => FormatDiff_ComputeDiff desired observed verbose, ?_, ?_⟩
  · intro r hr
    rw [ComputeDiff_eq, List.mem_append, List.mem_map, List.mem_map] at hr
    rcases hr with ⟨d, hd, rfl⟩ | ⟨c, hc, rfl⟩
    · have hf := diffDesired_fields observed d
      refine ⟨?_, hf.2.2.2.1, ?_, ?_⟩
      · rw [hf.1]
        simp [hf.2.2.1]
      · intro d' hd'
        rw [hf.1] at hd'
        cases hd'
        exact ⟨hd, hf.2.1.symm⟩
      · intro c hc
        have h := hf.2.2.2.2 c hc
        exact ⟨h.1, h.2.trans hf.2.1.symm⟩
    · rw [List.mem_filter] at hc
      refine ⟨by simp [extraRecord], by simp [extraRecord], ?_, ?_⟩
      · intro d hd
        simp [extraRecord] at hd
      · intro c' hc'
        simp only [extraRecord, Option.some.injEq] at hc'
        subst hc'
        exact ⟨hc.1, rfl⟩
  · intro i hi
    refine ⟨diffDesired (buildMap observed) desired[i], ?_,
      (diffDesired_fields observed desired[i]).1, diffDesired_Name _ _⟩
    rw [ComputeDiff_eq, List.getElem?_append_left (by simpa using hi), List.getElem?_map,
      List.getElem?_eq_getElem hi]
    rfl
  · intro client force del
    exact syncApply_not_panicked client force del _ hwf
  · intro client force
    rw [cloneApply_eq_syncApply client force _ {} rfl]
    exact syncApply_not_panicked client force false _ hwf

/-- C11, witness: the record at position 1 of the scenario's diff points at
the desired label `docs`. -/
theorem ComputeDiff_pointers_present_witness :
    ∃ r, (ComputeDiff scenarioDesired scenarioObserved)[1]? = some r
      ∧ r.Desired = some ⟨"docs", "0075ca", ""⟩ ∧ r.Name = "docs" :=
  (ComputeDiff_pointers_present scenarioDesired scenarioObserved).2.1 1 (by decide)

/-! ## Clone as a sync -/

/-- C12: on every diff list, for every client and force flag, the apply loop
of `runClone` issues the same calls with the same results and reports the
same counters as the apply loop of `runSync` with force set to the clone's
flag and delete-unmanaged unset; it logs no delete call and reports deleted
as zero, and on the diff of any two lists it runs to completion.  So a clone
is the run of a sync (no dry run, confirmation granted, delete-unmanaged
unset) whose file parses to the source labels, against the same target. -/
theorem runClone_is_sync (client : Mutator) (force : Bool) :
    (∀ diffs : List LabelDiff,
      cloneApply client force {} diffs = syncApply client force false {} diffs
      ∧ (∀ e ∈ (cloneApply client force {} diffs).log, e.1.isDelete = false)
      ∧ (∀ c u x, (cloneApply client force {} diffs).outcome = .completed c u x → x = 0))
    ∧ (∀ source target : List Label,
        ∃ c u, (cloneApply client force {} (ComputeDiff source target)).outcome
          = .completed c u 0)
    ∧ ∀ (repoFlag : String) (cw : CloneWorld) (fileName : String) (strings : GoStrings)
        (sw : SyncWorld) (source target : List Label),
        cw.client = client → sw.client = client → repoFlag ≠ "" → source ≠ [] →
        cw.sourceClientError = none → cw.sourceLabels = .ok source →
        cw.targetClientError = none → cw.targetLabels = .ok target →
        ParseFile fileName sw.file = .ok source → sw.newClientError = none →
        sw.listLabels = .ok target →
        runClone force repoFlag cw
          = runSync ⟨fileName, false, force, false, true⟩ strings sw := by
  refine ⟨fun diffs => ⟨cloneApply_eq_syncApply client force diffs {} rfl, ?_,
    cloneApply_deleted_zero client force diffs {}⟩, ?_, ?_⟩
  · rw [cloneApply_eq_syncApply client force diffs {} rfl]
    exact syncApply_no_delete client force diffs {} (by simp)
  · intro source target
    have hwf : ∀ d ∈ ComputeDiff source target,
        d.Typ = DiffTypeCreate ∨ d.Typ = DiffTypeUpdate → d.Desired.isSome = true :=
      fun d hd => (ComputeDiff_pointers source target d hd).1
    have hz := cloneApply_deleted_zero client force (ComputeDiff source target) {}
    rw [cloneApply_eq_syncApply client force _ {} rfl,
      syncApply_eq client force false _ {} hwf] at hz ⊢
    have hx := hz _ _ _ rfl
    exact ⟨_, _, by rw [hx]⟩
  · intro repoFlag cw fileName strings sw source target hcw hsw hr hne hsc hs htc ht hp hc hl
    rw [runClone_reached force repoFlag cw source target hr hsc hs hne htc ht,
      runSync_reached ⟨fileName, false, force, false, true⟩ strings sw source target hp hne hc hl,
      hcw, hsw, cloneApply_eq_syncApply client force _ {} rfl]
    simp

/-- C12, witness: cloning the scenario's desired list onto its observed list,
with force, is the forced sync of the same lists. -/
theorem runClone_is_sync_witness :
    runClone true "owner/target" (exampleCloneWorld scenarioDesired scenarioObserved)
      = runSync ⟨"labels.yml", false, true, false, true⟩ asciiStrings
          (exampleWorld scenarioDesired scenarioObserved "") :=
  (runClone_is_sync alwaysOk true).2.2 "owner/target"
    (exampleCloneWorld scenarioDesired scenarioObserved) "labels.yml" asciiStrings
    (exampleWorld scenarioDesired scenarioObserved "") scenarioDesired scenarioObserved
    rfl rfl (by decide) (by decide) rfl rfl rfl rfl rfl rfl rfl

end LabelSync
